import Mathlib

/-!
Verification of the SD-WAN controller's health-monitoring / failover core
(`controller.py`).  The Python source is shallowly embedded: floats become
rationals, dictionaries become association lists, and the fallible subprocess
probe boundary becomes an `Option`-valued input.
-/

namespace SDWAN

/-- One entry of `path_metrics`: the dictionary produced by `_measure_path`
(the `timestamp` field is omitted; no claim mentions it). -/
structure PathMetrics where
  latency : ℚ
  loss : ℚ
  available : Bool
  quality : ℚ
deriving DecidableEq

/-- `_calculate_quality_score(latency, loss)`: `if loss == 100: return 0`;
`latency_score = max(0, 100 - latency/2)`; `loss_score = 100 - loss*10`;
`score = latency_score*0.6 + loss_score*0.4`; `return max(0, min(100, score))`.
The Python locals are inlined. -/
def calculate_quality_score (latency loss : ℚ) : ℚ :=
  if loss = 100 then 0
  else max 0 (min 100 ((max 0 (100 - latency / 2)) * 0.6 + (100 - loss * 10) * 0.4))

/-- The data `_measure_path` extracts from the ping output with its two
regular expressions: the parsed average latency (if the latency regex
matched) and the parsed loss percentage (if the loss regex matched). -/
structure PingParse where
  latencyMatch : Option ℚ
  lossMatch : Option ℚ
deriving DecidableEq

/-- `_measure_path(target_ip)`.  The subprocess call is the fallible
boundary: `none` is the exception path (timeout or any other execution
failure, caught by the outer `except`), `some r` a run whose stdout parsed
as `r`.  On the success path `latency = match or 999.0`,
`loss = match or 100.0`, `available = loss < 100`, quality derived. -/
def measure_path (result : Option PingParse) : PathMetrics :=
  match result with
  | some r =>
      { latency := r.latencyMatch.getD 999
        loss := r.lossMatch.getD 100
        available := decide (r.lossMatch.getD 100 < 100)
        quality := calculate_quality_score (r.latencyMatch.getD 999) (r.lossMatch.getD 100) }
  | none =>
      { latency := 999, loss := 100, available := false, quality := 0 }

/-- One entry of `performance_history[path]`: the dictionary appended by
`_measure_all_paths` (`{'timestamp': ..., 'latency': ..., 'loss': ...}`). -/
structure HistEntry where
  timestamp : ℚ
  latency : ℚ
  loss : ℚ
deriving DecidableEq

/-- The history update of `_measure_all_paths` for one path: append the new
entry, then `if len(...) > 20: pop(0)`. -/
def append_measurement (history : List HistEntry) (m : HistEntry) : List HistEntry :=
  let appended := history ++ [m]
  if 20 < appended.length then appended.drop 1 else appended

/-- `[m['latency'] for m in history[-5:]]`: the latencies of the last five
history entries. -/
def recent_latencies (history : List HistEntry) : List ℚ :=
  (history.drop (history.length - 5)).map (fun m => m.latency)

/-- The per-path body of `_detect_anomalies`: skip when fewer than 5
samples, otherwise compare `latencies[-1]` against `sum/len` of the last
five and against the absolute bound 50. -/
def detect_anomaly (history : List HistEntry) : Bool :=
  if history.length < 5 then false
  else
    match (recent_latencies history).getLast? with
    | some current_latency =>
        decide ((recent_latencies history).sum / ((recent_latencies history).length : ℚ) * 2
            < current_latency)
          && decide ((50 : ℚ) < current_latency)
    | none => false

/-- The `anomaly_counts[path] += 1` update guarded by the anomaly test. -/
def update_anomaly_count (history : List HistEntry) (count : ℕ) : ℕ :=
  if detect_anomaly history then count + 1 else count

/-- `self.LATENCY_THRESHOLD = 50`. -/
def LATENCY_THRESHOLD : ℚ := 50

/-- `self.LOSS_THRESHOLD = 5`. -/
def LOSS_THRESHOLD : ℚ := 5

/-- `self.LATENCY_CRITICAL = 100`. -/
def LATENCY_CRITICAL : ℚ := 100

/-- Path status as set by `_analyze_paths` (the decorated strings
`"OK" / "DOWN" / "CRITICAL" / "HIGH" / "LOSS"`). -/
inductive PathStatus where
  | ok
  | down
  | critical
  | highLatency
  | highLoss
deriving DecidableEq

/-- The classification chain of `_analyze_paths` for one path: the status
together with the `action_needed` flag. -/
def analyze_status (m : PathMetrics) : PathStatus × Bool :=
  if m.available = false then (PathStatus.down, true)
  else if LATENCY_CRITICAL < m.latency then (PathStatus.critical, true)
  else if LATENCY_THRESHOLD < m.latency then (PathStatus.highLatency, false)
  else if LOSS_THRESHOLD < m.loss then (PathStatus.highLoss, false)
  else (PathStatus.ok, false)

/-- The loop of `_find_best_alternative_path`, with the running
`(best_path, best_quality)` accumulator: skip the failed path, replace the
accumulator when `metrics['available'] and metrics['quality'] > best_quality`. -/
def find_best_aux (failed : String) :
    List (String × PathMetrics) → Option String × ℚ → Option String × ℚ
  | [], best => best
  | x :: rest, best =>
      if x.1 = failed then find_best_aux failed rest best
      else if x.2.available = true ∧ best.2 < x.2.quality then
        find_best_aux failed rest (some x.1, x.2.quality)
      else find_best_aux failed rest best

/-- `_find_best_alternative_path(failed_path)`: iterate `path_metrics` in
order starting from `best_path = None`, `best_quality = 0`. -/
def find_best_alternative_path (failed : String)
    (path_metrics : List (String × PathMetrics)) : Option String :=
  (find_best_aux failed path_metrics (none, 0)).1

/-- The per-path slice of the controller state that the failover logic
touches: the path's `last_switch` timestamp and the shared `path_metrics`
table. -/
structure CtrlState where
  lastSwitch : ℚ
  metrics : List (String × PathMetrics)
deriving DecidableEq

/-- The two entry points that can invoke the failover orchestrator for a
path: the periodic classification step of `_analyze_paths` (at the current
time `t`), and the asynchronous tunnel-down signal handled by
`_handle_tunnel_failure`. -/
inductive MonEvent where
  | analyzeCycle (t : ℚ)
  | tunnelDown (t : ℚ)
deriving DecidableEq

/-- Dictionary lookup `path_metrics[path]`. -/
def lookup_metric (p : String) (l : List (String × PathMetrics)) : Option PathMetrics :=
  (l.find? (fun x => x.1 == p)).map (fun x => x.2)

/-- `_recalculate_and_install_flows(failed_path_name)`: finds the best
alternative; on success it withdraws the failed path's flows and logs the
switch, otherwise it logs "No alternative".  Its observable outcome is the
selected alternative (it mutates no controller state itself); the emitted
FAILOVER event is represented by this value. -/
def recalculate_and_install_flows (failed : String)
    (path_metrics : List (String × PathMetrics)) : Option String :=
  find_best_alternative_path failed path_metrics

/-- One step of the failover-relevant control flow for path `p`.
`analyzeCycle t` is the tail of `_analyze_paths` for `p`: if the
classification says `action_needed` and `t - last_switch > 30`, record
`last_switch = t` and invoke `_recalculate_and_install_flows`.
`tunnelDown t` is `_handle_tunnel_failure` for `p`: it marks the path DOWN
and invokes `_recalculate_and_install_flows` directly, with no cooldown
check and no `last_switch` update.  Each invocation of the orchestrator is
emitted as `(time, selected alternative)`. -/
def step (p : String) (s : CtrlState) : MonEvent → CtrlState × List (ℚ × Option String)
  | MonEvent.analyzeCycle t =>
      match lookup_metric p s.metrics with
      | none => (s, [])
      | some m =>
          if (analyze_status m).2 = true then
            if 30 < t - s.lastSwitch then
              ({ s with lastSwitch := t }, [(t, recalculate_and_install_flows p s.metrics)])
            else (s, [])
          else (s, [])
  | MonEvent.tunnelDown t =>
      (s, [(t, recalculate_and_install_flows p s.metrics)])

/-- Run a sequence of monitoring events from an accumulator, collecting all
orchestrator invocations in order. -/
def run_events_from (p : String) (acc : CtrlState × List (ℚ × Option String))
    (evs : List MonEvent) : CtrlState × List (ℚ × Option String) :=
  evs.foldl (fun a e =>
    let r := step p a.1 e
    (r.1, a.2 ++ r.2)) acc

/-- Run a sequence of monitoring events from a starting state. -/
def run_events (p : String) (s : CtrlState) (evs : List MonEvent) :
    CtrlState × List (ℚ × Option String) :=
  run_events_from p (s, []) evs

/-- C3 spec-side formula (from the spec's words, NOT the source): the loss
term clamped to `[0,100]`, i.e. `loss_score = clamp(100 - loss*10, 0, 100)`,
so that the loss penalty would saturate at 10% loss. -/
def spec_quality_clamped_loss (latency loss : ℚ) : ℚ :=
  max 0 (min 100 (0.6 * max 0 (100 - latency / 2) + 0.4 * max 0 (min 100 (100 - loss * 10))))

/-- The sentinel metrics of an unreachable path, as produced by the probe's
failure branch. -/
def mDown : PathMetrics := measure_path none

/-- Metrics of a healthy path: 20 ms latency, 0% loss (quality 94). -/
def mGood : PathMetrics := measure_path (some { latencyMatch := some 20, lossMatch := some 0 })

/-- Metrics of a path that is available (25% loss) but whose quality score
clamps to 0 (latency 200 ms). -/
def mZero : PathMetrics := measure_path (some { latencyMatch := some 200, lossMatch := some 25 })

/-- Metrics of a path with critical latency: 150 ms, 0% loss. -/
def mCrit : PathMetrics := measure_path (some { latencyMatch := some 150, lossMatch := some 0 })

/-- A state with a failed path and a healthy alternative. -/
def s_two_paths : CtrlState :=
  { lastSwitch := 0, metrics := [("HQ-to-Site1", mDown), ("HQ-to-Site2", mGood)] }

/-- A state where every path is down, so no alternative exists. -/
def s_no_alt : CtrlState :=
  { lastSwitch := 0, metrics := [("HQ-to-Site1", mDown), ("HQ-to-Site2", mDown)] }

/-- Scenario D history: five measurements with latencies 10,10,10,10,60. -/
def histD : List HistEntry :=
  [⟨0, 10, 0⟩, ⟨1, 10, 0⟩, ⟨2, 10, 0⟩, ⟨3, 10, 0⟩, ⟨4, 60, 0⟩]

end SDWAN

namespace SDWAN

/-- C3 counterexample: at latency 0 the code gives quality 20 for 20% loss
but 60 for 10% loss, while the claimed clamped formula gives 60 at 20% loss;
so the code does not saturate the loss penalty at 10% and the claimed
formula disagrees with the code. -/
theorem quality_loss_penalty_not_clamped :
    calculate_quality_score 0 20 = 20 ∧
    spec_quality_clamped_loss 0 20 = 60 ∧
    calculate_quality_score 0 10 = 60 ∧
    calculate_quality_score 0 20 ≠ calculate_quality_score 0 10 := by
  refine ⟨?_, ?_, ?_, ?_⟩ <;> norm_num [calculate_quality_score, spec_quality_clamped_loss]

/-- C8: on the failure path (`none`, i.e. timeout or any execution failure)
`_measure_path` returns the unreachable sentinel `latency=999.0, loss=100.0,
available=false, quality=0`; the function is total, so every failure is
encoded in the returned value.  The same sentinel also results when the
subprocess succeeds but neither regex matches. -/
theorem measure_path_failure_sentinel :
    measure_path none = { latency := 999, loss := 100, available := false, quality := 0 } ∧
    measure_path (some { latencyMatch := none, lossMatch := none })
      = { latency := 999, loss := 100, available := false, quality := 0 } := by
  refine ⟨rfl, ?_⟩
  simp [measure_path, calculate_quality_score]

lemma append_measurement_short (h : List HistEntry) (m : HistEntry)
    (hlen : h.length < 20) : append_measurement h m = h ++ [m] := by
  have hc : ¬ 20 < (h ++ [m]).length := by
    simp only [List.length_append, List.length_cons, List.length_nil]
    omega
  simp only [append_measurement]
  rw [if_neg hc]

lemma append_measurement_full (x : HistEntry) (t : List HistEntry) (m : HistEntry)
    (hlen : (x :: t).length = 20) : append_measurement (x :: t) m = t ++ [m] := by
  simp only [List.length_cons] at hlen
  have hc : 20 < ((x :: t) ++ [m]).length := by
    simp only [List.length_append, List.length_cons, List.length_nil]
    omega
  simp only [append_measurement]
  rw [if_pos hc]
  simp

lemma foldl_append_measurement (ms : List HistEntry) :
    ∀ h : List HistEntry, h.length ≤ 20 →
      ms.foldl append_measurement h = (h ++ ms).drop ((h ++ ms).length - 20) := by
  induction ms with
  | nil =>
      intro h hh
      have hz : h.length - 20 = 0 := Nat.sub_eq_zero_of_le hh
      simp [hz]
  | cons m ms ih =>
      intro h hh
      rw [List.foldl_cons]
      by_cases hlen : h.length < 20
      · rw [append_measurement_short h m hlen, ih (h ++ [m]) (by simp; omega)]
        have e : (h ++ [m]) ++ ms = h ++ m :: ms := by simp
        rw [e]
      · have h20 : h.length = 20 := by omega
        obtain ⟨x, t, rfl⟩ : ∃ x t, h = x :: t := by
          cases h with
          | nil => simp at h20
          | cons x t => exact ⟨x, t, rfl⟩
        have ht : t.length = 19 := by simpa using h20
        rw [append_measurement_full x t m h20, ih (t ++ [m]) (by simp; omega)]
        have e1 : (t ++ [m]) ++ ms = t ++ m :: ms := by simp
        have e2 : (x :: t) ++ m :: ms = x :: (t ++ m :: ms) := by simp
        rw [e1, e2]
        have e3 : (x :: (t ++ m :: ms)).length - 20 = ((t ++ m :: ms).length - 20) + 1 := by
          simp only [List.length_cons, List.length_append]
          omega
        rw [e3, List.drop_succ_cons]

lemma recent_latencies_length (history : List HistEntry) (h5 : 5 ≤ history.length) :
    (recent_latencies history).length = 5 := by
  simp only [recent_latencies, List.length_map, List.length_drop]
  omega

lemma recent_latencies_getLast (history : List HistEntry) (h5 : 5 ≤ history.length) :
    (recent_latencies history).getLast? = history.getLast?.map (fun m => m.latency) := by
  have hne : history.drop (history.length - 5) ≠ [] := by
    apply List.ne_nil_of_length_pos
    rw [List.length_drop]
    omega
  rw [recent_latencies, List.getLast?_map]
  congr 1
  conv_rhs => rw [← List.take_append_drop (history.length - 5) history]
  rw [List.getLast?_append_of_ne_nil _ hne]

/-- C4: an anomaly is recorded for a path (its counter incremented by
exactly 1, the anomaly event being guarded by the same test) iff the history
has at least 5 entries and the most recent latency strictly exceeds both
twice the average of the last five latencies and 50; with fewer than 5
samples nothing fires. -/
theorem anomaly_detection_iff (history : List HistEntry) (count : ℕ) :
    (history.length < 5 →
      detect_anomaly history = false ∧ update_anomaly_count history count = count) ∧
    (5 ≤ history.length →
      (detect_anomaly history = true ↔
          2 * ((recent_latencies history).sum / 5)
              < (history.getLast?.map (fun m => m.latency)).getD 0
            ∧ 50 < (history.getLast?.map (fun m => m.latency)).getD 0) ∧
      (detect_anomaly history = true → update_anomaly_count history count = count + 1) ∧
      (detect_anomaly history = false → update_anomaly_count history count = count)) := by
  constructor
  · intro h5
    have hd : detect_anomaly history = false := by
      simp [detect_anomaly, h5]
    exact ⟨hd, by simp [update_anomaly_count, hd]⟩
  · intro h5
    have hnl : history ≠ [] := by
      intro h
      rw [h] at h5
      simp at h5
    obtain ⟨lastE, hlastE⟩ : ∃ e, history.getLast? = some e :=
      ⟨history.getLast hnl, List.getLast?_eq_getLast history hnl⟩
    have hml : (recent_latencies history).getLast? = some lastE.latency := by
      rw [recent_latencies_getLast history h5, hlastE]
      rfl
    have hlen5 : ((recent_latencies history).length : ℚ) = 5 := by
      rw [recent_latencies_length history h5]
      norm_num
    have hd : detect_anomaly history
        = (decide ((recent_latencies history).sum / 5 * 2 < lastE.latency)
            && decide ((50 : ℚ) < lastE.latency)) := by
      unfold detect_anomaly
      rw [if_neg (by omega : ¬ history.length < 5), hml]
      simp only [hlen5]
    refine ⟨?_, ?_, ?_⟩
    · rw [hd, hlastE]
      simp only [Option.map_some', Option.getD_some]
      rw [Bool.and_eq_true, decide_eq_true_eq, decide_eq_true_eq]
      constructor
      · rintro ⟨ha, hb⟩
        exact ⟨by linarith, hb⟩
      · rintro ⟨ha, hb⟩
        exact ⟨by linarith, hb⟩
    · intro hdet
      simp [update_anomaly_count, hdet]
    · intro hdet
      simp [update_anomaly_count, hdet]

/-- C4 witness: Scenario D, latencies 10,10,10,10,60 — average 20,
current 60 > 40 and > 50, so the anomaly fires and the counter goes
from 0 to 1. -/
theorem anomaly_detection_iff_witness :
    detect_anomaly histD = true ∧ update_anomaly_count histD 0 = 1 := by
  have h := (anomaly_detection_iff histD 0).2 (by norm_num [histD])
  have hdet : detect_anomaly histD = true := h.1.mpr (by
    norm_num [recent_latencies, histD, List.getLast?_cons_cons])
  exact ⟨hdet, h.2.1 hdet⟩

/-- C5: `_analyze_paths` classifies each measurement by the five rules in
strict priority order with first match winning (unavailable → DOWN, else
latency over 100 → CRITICAL, else latency over 50 → HIGH_LATENCY, else loss
over 5 → LOSS, else OK), and `action_needed` holds exactly for the DOWN and
CRITICAL outcomes. -/
theorem analyze_status_priority (m : PathMetrics) :
    (m.available = false → analyze_status m = (PathStatus.down, true)) ∧
    (m.available = true → 100 < m.latency → analyze_status m = (PathStatus.critical, true)) ∧
    (m.available = true → m.latency ≤ 100 → 50 < m.latency →
      analyze_status m = (PathStatus.highLatency, false)) ∧
    (m.available = true → m.latency ≤ 50 → 5 < m.loss →
      analyze_status m = (PathStatus.highLoss, false)) ∧
    (m.available = true → m.latency ≤ 50 → m.loss ≤ 5 →
      analyze_status m = (PathStatus.ok, false)) ∧
    ((analyze_status m).2 = true ↔
      (analyze_status m).1 = PathStatus.down ∨ (analyze_status m).1 = PathStatus.critical) := by
  refine ⟨?_, ?_, ?_, ?_, ?_, ?_⟩
  · intro hav
    simp [analyze_status, hav]
  · intro hav hcrit
    simp [analyze_status, hav, LATENCY_CRITICAL, hcrit]
  · intro hav hle hwarn
    simp [analyze_status, hav, LATENCY_CRITICAL, LATENCY_THRESHOLD, not_lt.mpr hle, hwarn]
  · intro hav hle hloss
    simp [analyze_status, hav, LATENCY_CRITICAL, LATENCY_THRESHOLD, LOSS_THRESHOLD,
      not_lt.mpr hle, not_lt.mpr (le_trans hle (by norm_num : (50 : ℚ) ≤ 100)), hloss]
  · intro hav hle hloss
    simp [analyze_status, hav, LATENCY_CRITICAL, LATENCY_THRESHOLD, LOSS_THRESHOLD,
      not_lt.mpr hle, not_lt.mpr (le_trans hle (by norm_num : (50 : ℚ) ≤ 100)),
      not_lt.mpr hloss]
  · unfold analyze_status
    split_ifs <;> simp

/-- C5 witness: Scenario C — a measurement with 150 ms latency and 0% loss
is classified CRITICAL with `action_needed`. -/
theorem analyze_status_priority_witness :
    analyze_status mCrit = (PathStatus.critical, true) := by
  refine (analyze_status_priority mCrit).2.1 ?_ ?_
  · norm_num [mCrit, measure_path]
  · norm_num [mCrit, measure_path]

/-- C9: for latency at least 0 and loss in `[0,100]` the quality score lies
in `[0,100]`, is non-increasing in latency for fixed loss, non-increasing in
loss for fixed latency, and is 0 at 100% loss for every latency. -/
theorem quality_bounds_and_monotonicity (latency loss : ℚ)
    (hlat : 0 ≤ latency) (hl0 : 0 ≤ loss) (hl1 : loss ≤ 100) :
    (0 ≤ calculate_quality_score latency loss ∧ calculate_quality_score latency loss ≤ 100) ∧
    (∀ latency2, latency ≤ latency2 →
      calculate_quality_score latency2 loss ≤ calculate_quality_score latency loss) ∧
    (∀ loss2, loss ≤ loss2 → loss2 ≤ 100 →
      calculate_quality_score latency loss2 ≤ calculate_quality_score latency loss) ∧
    calculate_quality_score latency 100 = 0 := by
  have hnonneg : ∀ a b : ℚ, 0 ≤ calculate_quality_score a b := by
    intro a b
    unfold calculate_quality_score
    split_ifs
    · exact le_refl 0
    · exact le_max_left 0 _
  have hub : ∀ a b : ℚ, calculate_quality_score a b ≤ 100 := by
    intro a b
    unfold calculate_quality_score
    split_ifs
    · norm_num
    · exact max_le (by norm_num) (min_le_left 100 _)
  refine ⟨⟨hnonneg latency loss, hub latency loss⟩, ?_, ?_, ?_⟩
  · intro latency2 h12
    unfold calculate_quality_score
    split_ifs
    · exact le_refl 0
    · have hls : max 0 (100 - latency2 / 2) ≤ max 0 (100 - latency / 2) :=
        max_le_max (le_refl 0) (by linarith)
      exact max_le_max (le_refl 0) (min_le_min (le_refl 100) (by nlinarith))
  · intro loss2 h12 h2100
    by_cases h2 : loss2 = 100
    · rw [h2]
      unfold calculate_quality_score
      rw [if_pos rfl]
      exact hnonneg latency loss
    · have hne : loss ≠ 100 := by
        intro h
        rw [h] at h12
        exact h2 (le_antisymm h2100 h12)
      unfold calculate_quality_score
      rw [if_neg h2, if_neg hne]
      exact max_le_max (le_refl 0) (min_le_min (le_refl 100) (by nlinarith))
  · unfold calculate_quality_score
    rw [if_pos rfl]

/-- C9 witness: the bounds, latency monotonicity and 100%-loss zero applied
at latency 20, loss 0 (with 30 ms as the larger latency). -/
theorem quality_bounds_and_monotonicity_witness :
    (0 ≤ calculate_quality_score 20 0 ∧ calculate_quality_score 20 0 ≤ 100) ∧
    calculate_quality_score 30 0 ≤ calculate_quality_score 20 0 ∧
    calculate_quality_score 20 5 ≤ calculate_quality_score 20 0 ∧
    calculate_quality_score 20 100 = 0 := by
  obtain ⟨hb, hmlat, hmloss, h100⟩ :=
    quality_bounds_and_monotonicity 20 0 (by norm_num) (by norm_num) (by norm_num)
  exact ⟨hb, hmlat 30 (by norm_num), hmloss 5 (by norm_num) (by norm_num), h100⟩

lemma find_best_aux_spec (failed : String) :
    ∀ (l : List (String × PathMetrics)) (b : Option String) (bq : ℚ),
      (find_best_aux failed l (b, bq) = (b, bq) ∧
        ∀ x ∈ l, x.1 ≠ failed → x.2.available = true → x.2.quality ≤ bq) ∨
      (∃ pre z post, l = pre ++ z :: post ∧ z.1 ≠ failed ∧ z.2.available = true ∧
        bq < z.2.quality ∧ find_best_aux failed l (b, bq) = (some z.1, z.2.quality) ∧
        (∀ y ∈ pre, y.1 ≠ failed → y.2.available = true → y.2.quality < z.2.quality) ∧
        (∀ y ∈ post, y.1 ≠ failed → y.2.available = true → y.2.quality ≤ z.2.quality)) := by
  intro l
  induction l with
  | nil =>
      intro b bq
      left
      refine ⟨rfl, ?_⟩
      intro x hx
      simp at hx
  | cons hd tl ih =>
      intro b bq
      by_cases hf : hd.1 = failed
      · have hstep : find_best_aux failed (hd :: tl) (b, bq)
            = find_best_aux failed tl (b, bq) := by
          simp [find_best_aux, hf]
        rcases ih b bq with ⟨heq, hall⟩ |
          ⟨pre, z, post, hl, hz1, hz2, hz3, heq, hpre, hpost⟩
        · left
          refine ⟨hstep.trans heq, ?_⟩
          intro x hx hxf hxa
          rcases List.mem_cons.mp hx with hx1 | hx2
          · exact absurd (hx1 ▸ hf) hxf
          · exact hall x hx2 hxf hxa
        · right
          refine ⟨hd :: pre, z, post, by rw [hl, List.cons_append], hz1, hz2, hz3, hstep.trans heq, ?_, hpost⟩
          intro y hy hyf hya
          rcases List.mem_cons.mp hy with hy1 | hy2
          · exact absurd (hy1 ▸ hf) hyf
          · exact hpre y hy2 hyf hya
      · by_cases hc : hd.2.available = true ∧ bq < hd.2.quality
        · have hstep : find_best_aux failed (hd :: tl) (b, bq)
              = find_best_aux failed tl (some hd.1, hd.2.quality) := by
            simp [find_best_aux, hf, hc]
          rcases ih (some hd.1) hd.2.quality with ⟨heq, hall⟩ |
            ⟨pre, z, post, hl, hz1, hz2, hz3, heq, hpre, hpost⟩
          · right
            refine ⟨[], hd, tl, rfl, hf, hc.1, hc.2, hstep.trans heq, ?_, hall⟩
            intro y hy
            simp at hy
          · right
            refine ⟨hd :: pre, z, post, by rw [hl, List.cons_append], hz1, hz2, lt_trans hc.2 hz3,
              hstep.trans heq, ?_, hpost⟩
            intro y hy hyf hya
            rcases List.mem_cons.mp hy with hy1 | hy2
            · rw [hy1]
              exact hz3
            · exact hpre y hy2 hyf hya
        · have hstep : find_best_aux failed (hd :: tl) (b, bq)
              = find_best_aux failed tl (b, bq) := by
            simp [find_best_aux, hf, hc]
          rcases ih b bq with ⟨heq, hall⟩ |
            ⟨pre, z, post, hl, hz1, hz2, hz3, heq, hpre, hpost⟩
          · left
            refine ⟨hstep.trans heq, ?_⟩
            intro x hx hxf hxa
            rcases List.mem_cons.mp hx with hx1 | hx2
            · subst hx1
              exact not_lt.mp ((not_and.mp hc) hxa)
            · exact hall x hx2 hxf hxa
          · right
            refine ⟨hd :: pre, z, post, by rw [hl, List.cons_append], hz1, hz2, hz3, hstep.trans heq, ?_, hpost⟩
            intro y hy hyf hya
            rcases List.mem_cons.mp hy with hy1 | hy2
            · subst hy1
              exact lt_of_le_of_lt (not_lt.mp ((not_and.mp hc) hya)) hz3
            · exact hpre y hy2 hyf hya

/-- C2 counterexample: with a failed path and one other path that is
available (25% loss) but has quality score 0 (200 ms latency), selection
returns none even though a path other than the failed one is available —
refuting "returns none iff every path other than f is unavailable". -/
theorem best_alternative_none_with_available_zero_quality :
    find_best_alternative_path "HQ-to-Site1"
        [("HQ-to-Site1", mDown), ("HQ-to-Site2", mZero)] = none
      ∧ mZero.available = true := by
  constructor
  · norm_num [find_best_alternative_path, find_best_aux, mDown, mZero, measure_path,
      calculate_quality_score, max_def, min_def]
  · norm_num [mZero, measure_path]

/-- C2 amended: selection returns none iff every tracked path other than
the failed one is unavailable or has quality at most 0; when it returns a
path, that path is a tracked path distinct from the failed one, available,
of strictly positive quality, and of maximal quality among available paths
other than the failed one. -/
theorem best_alternative_characterization (failed : String)
    (path_metrics : List (String × PathMetrics)) :
    (find_best_alternative_path failed path_metrics = none ↔
      ∀ x ∈ path_metrics, x.1 ≠ failed → x.2.available = true → x.2.quality ≤ 0) ∧
    (∀ p, find_best_alternative_path failed path_metrics = some p →
      ∃ m, (p, m) ∈ path_metrics ∧ p ≠ failed ∧ m.available = true ∧ 0 < m.quality ∧
        ∀ x ∈ path_metrics, x.1 ≠ failed → x.2.available = true →
          x.2.quality ≤ m.quality) := by
  rcases find_best_aux_spec failed path_metrics none 0 with ⟨heq, hall⟩ |
    ⟨pre, z, post, hl, hz1, hz2, hz3, heq, hpre, hpost⟩
  · have hnone : find_best_alternative_path failed path_metrics = none := by
      unfold find_best_alternative_path
      rw [heq]
    constructor
    · exact ⟨fun _ => hall, fun _ => hnone⟩
    · intro p hp
      rw [hnone] at hp
      simp at hp
  · have hfind : find_best_alternative_path failed path_metrics = some z.1 := by
      unfold find_best_alternative_path
      rw [heq]
    have hzmem : z ∈ path_metrics := by
      rw [hl]
      simp
    constructor
    · constructor
      · intro hnone
        rw [hfind] at hnone
        simp at hnone
      · intro hle
        exact absurd hz3 (not_lt.mpr (hle z hzmem hz1 hz2))
    · intro p hp
      rw [hfind] at hp
      have hp1 : z.1 = p := by
        injection hp
      subst hp1
      refine ⟨z.2, by simpa using hzmem, hz1, hz2, hz3, ?_⟩
      intro x hx hxf hxa
      rw [hl] at hx
      rcases List.mem_append.mp hx with hx1 | hx2
      · exact le_of_lt (hpre x hx1 hxf hxa)
      · rcases List.mem_cons.mp hx2 with hx3 | hx4
        · rw [hx3]
        · exact hpost x hx4 hxf hxa

/-- C2 witness: with no other tracked path, selection returns none. -/
theorem best_alternative_characterization_witness :
    find_best_alternative_path "HQ-to-Site1" [] = none :=
  (best_alternative_characterization "HQ-to-Site1" []).1.mpr (by
    intro x hx
    simp at hx)

/-- C10: whenever selection returns a path, that path occurs in the metrics
table, is distinct from the failed path, is available and has strictly
positive quality (an available path of quality 0 is never selected); every
candidate before it in iteration order has strictly smaller quality and
every candidate after it has no larger quality, so among ties at the
maximum the first in iteration order is kept. -/
theorem best_alternative_first_max (failed : String)
    (path_metrics : List (String × PathMetrics)) (p : String)
    (h : find_best_alternative_path failed path_metrics = some p) :
    ∃ pre m post, path_metrics = pre ++ (p, m) :: post ∧ p ≠ failed ∧
      m.available = true ∧ 0 < m.quality ∧
      (∀ y ∈ pre, y.1 ≠ failed → y.2.available = true → y.2.quality < m.quality) ∧
      (∀ y ∈ post, y.1 ≠ failed → y.2.available = true → y.2.quality ≤ m.quality) := by
  rcases find_best_aux_spec failed path_metrics none 0 with ⟨heq, hall⟩ |
    ⟨pre, z, post, hl, hz1, hz2, hz3, heq, hpre, hpost⟩
  · unfold find_best_alternative_path at h
    rw [heq] at h
    simp at h
  · unfold find_best_alternative_path at h
    rw [heq] at h
    simp only at h
    have hp1 : z.1 = p := by
      injection h
    subst hp1
    exact ⟨pre, z.2, post, by simpa using hl, hz1, hz2, hz3, hpre, hpost⟩

/-- C10 witness: applied to a table with one healthy path, the selected
path's metrics are available with strictly positive quality. -/
theorem best_alternative_first_max_witness :
    mGood.available = true ∧ 0 < mGood.quality := by
  obtain ⟨pre, m, post, hl, hne, hav, hq, hpre, hpost⟩ :=
    best_alternative_first_max "HQ-to-Site1" [("HQ-to-Site2", mGood)] "HQ-to-Site2" (by
      have hne2 : ¬ ("HQ-to-Site2" : String) = "HQ-to-Site1" := by decide
      norm_num [find_best_alternative_path, find_best_aux, mGood, measure_path,
        calculate_quality_score, max_def, min_def, hne2])
  have hmem : ("HQ-to-Site2", m) ∈ [("HQ-to-Site2", mGood)] := by
    rw [hl]
    simp
  have hm : m = mGood := by
    simpa using hmem
  rw [hm] at hav hq
  exact ⟨hav, hq⟩

/-- C7: per-path history is a bounded FIFO of capacity 20.  Appending any
sequence of measurements (starting from the empty history the code
initializes) leaves at most 20 entries, and the surviving entries are
exactly the most recent ones in temporal append order: the result equals
`ms.drop (ms.length - 20)`, i.e. on overflow the oldest entry is evicted. -/
theorem history_bounded_fifo (ms : List HistEntry) :
    (ms.foldl append_measurement []).length ≤ 20 ∧
    ms.foldl append_measurement [] = ms.drop (ms.length - 20) := by
  have h := foldl_append_measurement ms [] (by simp)
  simp only [List.nil_append] at h
  refine ⟨?_, h⟩
  rw [h]
  simp
  omega

/-- C3 amended: for latency at least 0 and loss in `[0,100)` the quality
equals `clamp(0.6*max(0,100-latency/2) + 0.4*(100-loss*10), 0, 100)` — the
loss term is NOT clamped below, so the loss penalty does not saturate at 10%
loss: wherever the score is positive it keeps strictly decreasing as loss
grows, until the outer clamp reaches 0. -/
theorem quality_score_formula (latency loss : ℚ)
    (hlat : 0 ≤ latency) (hl0 : 0 ≤ loss) (hl1 : loss < 100) :
    calculate_quality_score latency loss
      = max 0 (min 100 (0.6 * max 0 (100 - latency / 2) + 0.4 * (100 - loss * 10))) ∧
    (∀ loss2, loss < loss2 → loss2 < 100 → 0 < calculate_quality_score latency loss →
      calculate_quality_score latency loss2 < calculate_quality_score latency loss) := by
  have hls0 : (0 : ℚ) ≤ max 0 (100 - latency / 2) := le_max_left 0 _
  have hls100 : max 0 (100 - latency / 2) ≤ 100 := max_le (by norm_num) (by linarith)
  constructor
  · unfold calculate_quality_score
    rw [if_neg (ne_of_lt hl1)]
    have he : (max 0 (100 - latency / 2)) * 0.6 + (100 - loss * 10) * 0.4
        = 0.6 * max 0 (100 - latency / 2) + 0.4 * (100 - loss * 10) := by ring
    rw [he]
  · intro loss2 h12 h2100 hpos
    unfold calculate_quality_score at hpos ⊢
    rw [if_neg (ne_of_lt hl1)] at hpos ⊢
    rw [if_neg (ne_of_lt h2100)]
    have hA100 : (max 0 (100 - latency / 2)) * 0.6 + (100 - loss * 10) * 0.4 ≤ 100 := by
      nlinarith
    have hB100 : (max 0 (100 - latency / 2)) * 0.6 + (100 - loss2 * 10) * 0.4 ≤ 100 := by
      nlinarith
    have hBA : (max 0 (100 - latency / 2)) * 0.6 + (100 - loss2 * 10) * 0.4
        < (max 0 (100 - latency / 2)) * 0.6 + (100 - loss * 10) * 0.4 := by
      linarith
    rw [min_eq_right hA100] at hpos ⊢
    have hposA : 0 < (max 0 (100 - latency / 2)) * 0.6 + (100 - loss * 10) * 0.4 := by
      by_contra hneg
      push_neg at hneg
      rw [max_eq_left hneg] at hpos
      exact lt_irrefl 0 hpos
    rw [max_eq_right (le_of_lt hposA)]
    rw [min_eq_right hB100]
    exact max_lt hposA hBA

/-- C3 amended witness: the unclamped formula evaluated at latency 20,
loss 0. -/
theorem quality_score_formula_witness :
    calculate_quality_score 20 0
      = max 0 (min 100 (0.6 * max 0 (100 - (20 : ℚ) / 2) + 0.4 * (100 - 0 * 10))) :=
  (quality_score_formula 20 0 (by norm_num) (by norm_num) (by norm_num)).1

/-- C6 counterexample: in a state where the monitored path is DOWN, the
cooldown has elapsed and no alternative exists, the periodic entry point
emits the "no alternative" event `(100, none)` but nevertheless advances
the failed path's `last_switch` from 0 to 100 — refuting "the failed path's
last_switch timestamp is unchanged by an invocation that finds no
candidate". -/
theorem no_alternative_still_updates_last_switch :
    (step "HQ-to-Site1" s_no_alt (MonEvent.analyzeCycle 100)).2 = [(100, none)] ∧
    (step "HQ-to-Site1" s_no_alt (MonEvent.analyzeCycle 100)).1.lastSwitch = 100 ∧
    s_no_alt.lastSwitch = 0 := by
  have e1 : (("HQ-to-Site1" : String) == "HQ-to-Site1") = true := by decide
  refine ⟨?_, ?_, rfl⟩ <;>
    norm_num [step, s_no_alt, lookup_metric, List.find?, e1, mDown, measure_path,
      analyze_status, recalculate_and_install_flows, find_best_alternative_path,
      find_best_aux, calculate_quality_score]

/-- C6 amended: when the classification is action-needed, the cooldown has
elapsed and no candidate exists, the step emits exactly the "no
alternative" event and performs no other mutation — except that
`last_switch` has already been set to the current time by the periodic
entry point before the orchestrator searched for an alternative. -/
theorem no_alternative_only_last_switch_mutation (p : String) (s : CtrlState) (t : ℚ)
    (m : PathMetrics) (hm : lookup_metric p s.metrics = some m)
    (ha : (analyze_status m).2 = true) (hcd : 30 < t - s.lastSwitch)
    (hnone : find_best_alternative_path p s.metrics = none) :
    step p s (MonEvent.analyzeCycle t) = ({ s with lastSwitch := t }, [(t, none)]) := by
  simp only [step]
  rw [hm]
  simp only [if_pos ha, if_pos hcd, recalculate_and_install_flows, hnone]

/-- C6 amended witness: the amended statement applied to the concrete
no-alternative state. -/
theorem no_alternative_only_last_switch_witness :
    step "HQ-to-Site1" s_no_alt (MonEvent.analyzeCycle 100)
      = ({ s_no_alt with lastSwitch := 100 }, [(100, none)]) := by
  have e1 : (("HQ-to-Site1" : String) == "HQ-to-Site1") = true := by decide
  apply no_alternative_only_last_switch_mutation "HQ-to-Site1" s_no_alt 100 mDown
  · norm_num [lookup_metric, s_no_alt, List.find?, e1]
  · norm_num [analyze_status, mDown, measure_path]
  · norm_num [s_no_alt]
  · norm_num [find_best_alternative_path, find_best_aux, s_no_alt, mDown, measure_path,
      calculate_quality_score]

lemma run_events_from_cons (p : String) (s : CtrlState) (out : List (ℚ × Option String))
    (e : MonEvent) (evs : List MonEvent) :
    run_events_from p (s, out) (e :: evs)
      = run_events_from p ((step p s e).1, out ++ (step p s e).2) evs := by
  simp [run_events_from]

/-- C1 counterexample: a state with a DOWN path and a healthy alternative;
the periodic cycle fires a failover at t=100 (recording `last_switch`), and
an asynchronous tunnel-down signal at t=105 fires a second failover for the
same path only 5 s later — `_handle_tunnel_failure` performs no cooldown
check, refuting "both entry points enforce the cooldown". -/
theorem tunnel_failure_bypasses_cooldown :
    (run_events "HQ-to-Site1" s_two_paths
        [MonEvent.analyzeCycle 100, MonEvent.tunnelDown 105]).2
      = [(100, some "HQ-to-Site2"), (105, some "HQ-to-Site2")] ∧
    (105 : ℚ) - 100 < 30 := by
  have e1 : (("HQ-to-Site1" : String) == "HQ-to-Site1") = true := by decide
  have e2 : ¬ ("HQ-to-Site2" : String) = "HQ-to-Site1" := by decide
  have hfind : find_best_alternative_path "HQ-to-Site1" s_two_paths.metrics
      = some "HQ-to-Site2" := by
    norm_num [find_best_alternative_path, find_best_aux, s_two_paths, mDown, mGood,
      measure_path, calculate_quality_score, max_def, min_def, e2]
  have hlook : lookup_metric "HQ-to-Site1" s_two_paths.metrics = some mDown := by
    norm_num [lookup_metric, s_two_paths, List.find?, e1]
  have hstat : (analyze_status mDown).2 = true := by
    norm_num [analyze_status, mDown, measure_path]
  have hcd : (30 : ℚ) < 100 - s_two_paths.lastSwitch := by
    norm_num [s_two_paths]
  have h1 : step "HQ-to-Site1" s_two_paths (MonEvent.analyzeCycle 100)
      = ({ s_two_paths with lastSwitch := 100 }, [(100, some "HQ-to-Site2")]) := by
    simp only [step]
    rw [hlook]
    simp only [if_pos hstat, if_pos hcd, recalculate_and_install_flows, hfind]
  have h2 : step "HQ-to-Site1" { s_two_paths with lastSwitch := 100 }
        (MonEvent.tunnelDown 105)
      = ({ s_two_paths with lastSwitch := 100 }, [(105, some "HQ-to-Site2")]) := by
    simp only [step, recalculate_and_install_flows]
    rw [show ({ s_two_paths with lastSwitch := 100 } : CtrlState).metrics
        = s_two_paths.metrics from rfl, hfind]
  constructor
  · rw [run_events, run_events_from_cons, h1]
    rw [show (({ s_two_paths with lastSwitch := 100 },
        [((100 : ℚ), some "HQ-to-Site2")]) : CtrlState × List (ℚ × Option String)).1
      = { s_two_paths with lastSwitch := 100 } from rfl]
    simp only [List.nil_append]
    rw [run_events_from_cons, h2]
    simp [run_events_from]
  · norm_num

lemma run_events_from_cooldown (p : String) :
    ∀ (evs : List MonEvent) (s : CtrlState) (out : List (ℚ × Option String)),
      (∀ e ∈ evs, ∃ t, e = MonEvent.analyzeCycle t) →
      List.Pairwise (fun a b => a.1 + 30 < b.1) out →
      (∀ a ∈ out, a.1 ≤ s.lastSwitch) →
      List.Pairwise (fun a b => a.1 + 30 < b.1) (run_events_from p (s, out) evs).2 := by
  intro evs
  induction evs with
  | nil =>
      intro s out hall hpw hbd
      simpa [run_events_from] using hpw
  | cons e evs ih =>
      intro s out hall hpw hbd
      obtain ⟨t, rfl⟩ := hall e (List.mem_cons_self e evs)
      have hall' : ∀ e2 ∈ evs, ∃ t2, e2 = MonEvent.analyzeCycle t2 :=
        fun e2 he2 => hall e2 (List.mem_cons_of_mem _ he2)
      cases hm : lookup_metric p s.metrics with
      | none =>
          have hstep : step p s (MonEvent.analyzeCycle t) = (s, []) := by
            simp [step, hm]
          rw [run_events_from_cons, hstep]
          simpa using ih s out hall' hpw hbd
      | some m =>
          by_cases hact : (analyze_status m).2 = true
          · by_cases hcd : 30 < t - s.lastSwitch
            · have hstep : step p s (MonEvent.analyzeCycle t)
                  = ({ s with lastSwitch := t },
                    [(t, recalculate_and_install_flows p s.metrics)]) := by
                simp only [step]
                rw [hm]
                simp only [if_pos hact, if_pos hcd]
              rw [run_events_from_cons, hstep]
              apply ih
              · exact hall'
              · rw [List.pairwise_append]
                refine ⟨hpw, List.pairwise_singleton _ _, ?_⟩
                intro a ha b hb
                rcases List.mem_singleton.mp hb with rfl
                have := hbd a ha
                simp only []
                linarith
              · intro a ha
                rcases List.mem_append.mp ha with ha1 | ha2
                · have := hbd a ha1
                  simp only []
                  linarith
                · rcases List.mem_singleton.mp ha2 with rfl
                  simp only []
                  exact le_refl t
            · have hstep : step p s (MonEvent.analyzeCycle t) = (s, []) := by
                simp [step, hm, hcd]
              rw [run_events_from_cons, hstep]
              simpa using ih s out hall' hpw hbd
          · have hstep : step p s (MonEvent.analyzeCycle t) = (s, []) := by
              simp [step, hm, hact]
            rw [run_events_from_cons, hstep]
            simpa using ih s out hall' hpw hbd

/-- C1 amended: only the periodic classification entry point enforces the
30-second cooldown.  Along any run consisting solely of periodic
classification cycles, the failovers emitted for a path are pairwise more
than 30 s apart (in particular no two within 30 s); the asynchronous
tunnel-down entry point bypasses the check, as the counterexample shows. -/
theorem periodic_failover_cooldown (p : String) (s : CtrlState) (evs : List MonEvent)
    (h : ∀ e ∈ evs, ∃ t, e = MonEvent.analyzeCycle t) :
    List.Pairwise (fun a b => a.1 + 30 < b.1) (run_events p s evs).2 := by
  rw [run_events]
  exact run_events_from_cooldown p evs s [] h List.Pairwise.nil (by
    intro a ha
    simp at ha)

/-- C1 amended witness: three periodic cycles at t = 100, 105, 140 over the
two-path state; the emitted failovers satisfy the pairwise cooldown
separation. -/
theorem periodic_failover_cooldown_witness :
    List.Pairwise (fun (a b : ℚ × Option String) => a.1 + 30 < b.1)
      (run_events "HQ-to-Site1" s_two_paths
        [MonEvent.analyzeCycle 100, MonEvent.analyzeCycle 105,
          MonEvent.analyzeCycle 140]).2 :=
  periodic_failover_cooldown "HQ-to-Site1" s_two_paths _ (by
    intro e he
    rcases List.mem_cons.mp he with rfl | he2
    · exact ⟨100, rfl⟩
    · rcases List.mem_cons.mp he2 with rfl | he3
      · exact ⟨105, rfl⟩
      · rcases List.mem_cons.mp he3 with rfl | he4
        · exact ⟨140, rfl⟩
        · simp at he4)

end SDWAN
